import Mathlib

/- Verification of the WebSocket client implemented in
   src/apps/desktop/src/main/blender_lightfast_addon.py (the desktop variant;
   src/blender_integration/blender_lightfast_addon.py is an earlier
   near-duplicate of the same codec).

   Embedding conventions: a byte is a Nat in [0, 256); byte strings
   (Python bytes / str at the wire level) are List Nat of byte values;
   the random inputs of the source (the 4-byte frame mask of line 165 and the
   message-id characters of line 362) are explicit parameters.  Fallible
   Python operations in the decoder are mirrored by an Option-returning
   variant, used to show that no exception can arise. -/

/-- The cyclic XOR masking loop shared by encode_websocket_frame
(lines 169-171) and decode_websocket_frame (lines 241-243):
`out[i] = payload[i] ^ mask[i % 4]` for `i` in `range(len(payload))`. -/
def maskBytes (mask payload : List Nat) : List Nat :=
  (List.range payload.length).map fun i => payload.getD i 0 ^^^ mask.getD (i % 4) 0

/-- `struct.pack` big-endian: the `w` bytes of `n`, most significant first
(used with w = 2 for ">H" at line 157 and w = 8 for ">Q" at line 161). -/
def beBytes : Nat → Nat → List Nat
  | 0, _ => []
  | w + 1, n => n / 256 ^ w % 256 :: beBytes w n

/-- `struct.unpack` big-endian interpretation of a byte list
(">H" at line 216, ">Q" at line 221). -/
def beBytesToNat (l : List Nat) : Nat := l.foldl (fun a b => a * 256 + b) 0

/-- encode_websocket_frame (lines 112-180) on a byte payload.  The caller
supplies the 4 random mask bytes of line 165 as `mask`.  The dict/str-to-bytes
front end (lines 118-141) happens before the wire layer modelled here.
Header byte 0 is `0x80 | opcode` (line 149); the length field is 1 byte for
length < 126, a 126 marker plus 2 big-endian bytes for length < 65536, and a
127 marker plus 8 big-endian bytes otherwise (lines 152-162); then the mask
and the masked payload. -/
def encode_websocket_frame (payload : List Nat) (opcode : Nat) (mask : List Nat) : List Nat :=
  if payload.length < 126 then
    (128 ||| opcode) :: (128 ||| payload.length) :: (mask ++ maskBytes mask payload)
  else if payload.length < 65536 then
    (128 ||| opcode) :: (128 ||| 126) ::
      (beBytes 2 payload.length ++ (mask ++ maskBytes mask payload))
  else
    (128 ||| opcode) :: (128 ||| 127) ::
      (beBytes 8 payload.length ++ (mask ++ maskBytes mask payload))

/-- The tail of decode_websocket_frame after the length field is known
(lines 224-244 and 257-258): extract the mask key if the masked bit is set
(returning NeedsMoreData when the buffer is too short, lines 225-229), check
the full frame is present (lines 231-234), extract the payload and unmask it
if needed.  `hlen` is the header length before the mask key. -/
def decodeRest (data : List Nat) (opcode : Nat) (masked : Bool) (plen hlen : Nat) :
    Option Nat × Option (List Nat) × Nat :=
  if masked then
    if data.length < hlen + 4 then (none, none, 0)
    else
      let mk := (data.drop hlen).take 4
      if data.length < hlen + 4 + plen then (none, none, 0)
      else (some opcode, some (maskBytes mk ((data.drop (hlen + 4)).take plen)), hlen + 4 + plen)
  else
    if data.length < hlen + plen then (none, none, 0)
    else (some opcode, some ((data.drop hlen).take plen), hlen + plen)

/-- decode_websocket_frame (lines 183-262): result is
(opcode, payload, frame_length), where (none, none, 0) is the NeedsMoreData
value returned whenever the buffer is too short (lines 188-189, 214-215,
219-220, 226-227, 233-234).  Control opcodes close=0x8, ping=0x9, pong=0xA
return (opcode, None, 2) before any payload parsing (lines 197-209).
The payload field holds the frame-layer (unmasked) payload bytes; for the
text opcode 0x1 the source afterwards converts exactly these bytes to
str/JSON for delivery (lines 246-256), a presentation step above the byte
level modelled here (binary and other opcodes return the bytes as-is,
lines 257-258). -/
def decode_websocket_frame (data : List Nat) : Option Nat × Option (List Nat) × Nat :=
  if data.length < 2 then (none, none, 0)
  else
    let b0 := data.getD 0 0
    let b1 := data.getD 1 0
    let opcode := b0 &&& 15
    let masked := (b1 &&& 128) != 0
    let len7 := b1 &&& 127
    if opcode = 8 ∨ opcode = 9 ∨ opcode = 10 then (some opcode, none, 2)
    else if len7 = 126 then
      if data.length < 4 then (none, none, 0)
      else decodeRest data opcode masked (beBytesToNat ((data.drop 2).take 2)) 4
    else if len7 = 127 then
      if data.length < 10 then (none, none, 0)
      else decodeRest data opcode masked (beBytesToNat ((data.drop 2).take 8)) 10
    else decodeRest data opcode masked len7 2

/-- Checked mirror of the unmasking loop (lines 241-243): every list access
`payload[i]` and `mask[i % 4]` is performed with a bounds check, as Python
indexing raises IndexError out of bounds.  Iterates `k` times from index
`i`, like `for i in range(payload_length)`. -/
def unmaskChecked (mask payload : List Nat) : Nat → Nat → Option (List Nat)
  | _, 0 => some []
  | i, k + 1 =>
    match payload[i]?, mask[i % 4]? with
    | some p, some m =>
      match unmaskChecked mask payload (i + 1) k with
      | some rest => some ((p ^^^ m) :: rest)
      | none => none
    | _, _ => none

/-- Checked mirror of `struct.unpack`: unpacking raises unless the slice has
exactly `w` bytes. -/
def unpackBE (w : Nat) (l : List Nat) : Option Nat :=
  if l.length = w then some (beBytesToNat l) else none

/-- Checked mirror of `decodeRest`: `none` means a Python exception would
escape the body of decode_websocket_frame at this step. -/
def decodeRestChecked (data : List Nat) (opcode : Nat) (masked : Bool) (plen hlen : Nat) :
    Option (Option Nat × Option (List Nat) × Nat) :=
  if masked then
    if data.length < hlen + 4 then some (none, none, 0)
    else
      let mk := (data.drop hlen).take 4
      if data.length < hlen + 4 + plen then some (none, none, 0)
      else
        match unmaskChecked mk ((data.drop (hlen + 4)).take plen) 0 plen with
        | some unmasked => some (some opcode, some unmasked, hlen + 4 + plen)
        | none => none
  else
    if data.length < hlen + plen then some (none, none, 0)
    else some (some opcode, some ((data.drop hlen).take plen), hlen + plen)

/-- Checked mirror of decode_websocket_frame: every partial Python operation
of the body (indexing `data[0]`, `data[1]`, `struct.unpack` on slices, the
masked indexing of the unmask loop) returns `none` where Python would raise.
`decode_websocket_frame_checked data = some r` states that the body computes
`r` without any exception. -/
def decode_websocket_frame_checked (data : List Nat) :
    Option (Option Nat × Option (List Nat) × Nat) :=
  if data.length < 2 then some (none, none, 0)
  else
    match data[0]?, data[1]? with
    | some b0, some b1 =>
      let opcode := b0 &&& 15
      let masked := (b1 &&& 128) != 0
      let len7 := b1 &&& 127
      if opcode = 8 ∨ opcode = 9 ∨ opcode = 10 then some (some opcode, none, 2)
      else if len7 = 126 then
        if data.length < 4 then some (none, none, 0)
        else
          match unpackBE 2 ((data.drop 2).take 2) with
          | some plen => decodeRestChecked data opcode masked plen 4
          | none => none
      else if len7 = 127 then
        if data.length < 10 then some (none, none, 0)
        else
          match unpackBE 8 ((data.drop 2).take 8) with
          | some plen => decodeRestChecked data opcode masked plen 10
          | none => none
      else decodeRestChecked data opcode masked len7 2
    | _, _ => none

/-- Python `needle in hay` helper: does `hay` start with `needle`? -/
def bytesStartWith : List Nat → List Nat → Bool
  | [], _ => true
  | _ :: _, [] => false
  | a :: as, b :: bs => a == b && bytesStartWith as bs

/-- Python substring containment `needle in hay`. -/
def containsSub (needle : List Nat) : List Nat → Bool
  | [] => bytesStartWith needle []
  | h :: t => bytesStartWith needle (h :: t) || containsSub needle t

/-- UTF-8 bytes of "HTTP/1.1 101". -/
def http101Bytes : List Nat := [72, 84, 84, 80, 47, 49, 46, 49, 32, 49, 48, 49]

/-- UTF-8 bytes of "Upgrade: websocket". -/
def upgradeBytes : List Nat :=
  [85, 112, 103, 114, 97, 100, 101, 58, 32, 119, 101, 98, 115, 111, 99, 107, 101, 116]

/-- verify_websocket_handshake (lines 88-109) on the decoded response text:
the response is accepted iff it contains the exact substrings "HTTP/1.1 101"
and "Upgrade: websocket" (lines 94-99); the `key` argument of the source is
unused by the check.  `bytes.decode("utf-8", errors="replace")` never raises,
so the surrounding try/except is inert at this level. -/
def verify_websocket_handshake (response : List Nat) : Bool :=
  containsSub http101Bytes response && containsSub upgradeBytes response

/-- The reaction of start_socket_client to the verification result
(lines 531-539): on failure the socket is closed and connect fails; on
success the socket is kept and the connected flag is set.  Result is
(connected flag, socket open). -/
def handshake_connect_step (response : List Nat) : Bool × Bool :=
  if verify_websocket_handshake response then (true, true) else (false, false)

/-- ASCII lower-casing of one byte. -/
def toLowerByte (c : Nat) : Nat := if 65 ≤ c ∧ c ≤ 90 then c + 32 else c

/-- Split a byte string at CRLF pairs into lines. -/
def splitCRLF : List Nat → List (List Nat)
  | [] => [[]]
  | 13 :: 10 :: rest => [] :: splitCRLF rest
  | c :: rest =>
    match splitCRLF rest with
    | [] => [[c]]
    | l :: ls => (c :: l) :: ls

/-- Modelled from the spec (claim C9 wording): accept iff the status line
(the first CRLF-separated line) contains "101" and some header line contains
"Upgrade: websocket" compared case-insensitively.  Spec-side definition, for
comparison with `verify_websocket_handshake`. -/
def spec_handshake_accepts (response : List Nat) : Bool :=
  match splitCRLF response with
  | [] => false
  | status :: headers =>
    containsSub [49, 48, 49] status &&
      headers.any fun line => containsSub (upgradeBytes.map toLowerByte) (line.map toLowerByte)

/-- The shape of a decoded application message as inspected by
handle_message (lines 411-468) and send_message (lines 365-408): a dict with
optional "id" and "action" fields, or a non-dict value. -/
inductive Msg
  | dict (id : Option (List Nat)) (action : Option (List Nat))
  | other
deriving DecidableEq

/-- Python dict lookup in the response_callbacks table. -/
def dictLookup (k : List Nat) : List (List Nat × Nat) → Option Nat
  | [] => none
  | (k', v) :: rest => if k' = k then some v else dictLookup k rest

/-- Removal of a key from the table (the removal half of `dict.pop`). -/
def removeKey (k : List Nat) : List (List Nat × Nat) → List (List Nat × Nat)
  | [] => []
  | (k', v) :: rest => if k' = k then removeKey k rest else (k', v) :: removeKey k rest

/-- Python dict assignment `d[k] = v`: overwrites any existing entry. -/
def dictInsert (k : List Nat) (v : Nat) (d : List (List Nat × Nat)) : List (List Nat × Nat) :=
  (k, v) :: removeKey k d

/-- The externally visible outcome of one handle_message call: invoke a
popped response callback (line 425), dispatch a known action
(lines 441-450), send an error reply for an unknown action (lines 451-462),
or drop the message (lines 463-468). -/
inductive RouterEffect
  | invoke (cb : Nat)
  | executeCode (id : Option (List Nat))
  | getSceneInfo (id : Option (List Nat))
  | unknownAction (a : List Nat) (id : Option (List Nat))
  | dropped
deriving DecidableEq

/-- UTF-8 bytes of "execute_code". -/
def executeCodeBytes : List Nat := [101, 120, 101, 99, 117, 116, 101, 95, 99, 111, 100, 101]

/-- UTF-8 bytes of "get_scene_info". -/
def getSceneInfoBytes : List Nat :=
  [103, 101, 116, 95, 115, 99, 101, 110, 101, 95, 105, 110, 102, 111]

/-- The action-dispatch tail of handle_message (lines 429-468), reached when
no pending callback matched. -/
def routeAction (cbs : List (List Nat × Nat)) (mid : Option (List Nat))
    (act : Option (List Nat)) : List (List Nat × Nat) × RouterEffect :=
  match act with
  | some a =>
    if a = executeCodeBytes then (cbs, .executeCode mid)
    else if a = getSceneInfoBytes then (cbs, .getSceneInfo mid)
    else (cbs, .unknownAction a mid)
  | none => (cbs, .dropped)

/-- handle_message (lines 411-468) as a transition on the
response_callbacks table: if the message is a dict whose "id" is a key of
the table, pop that entry and invoke the callback once (lines 417-426);
otherwise fall through to action dispatch or drop. -/
def handle_message (cbs : List (List Nat × Nat)) (m : Msg) :
    List (List Nat × Nat) × RouterEffect :=
  match m with
  | .dict (some i) act =>
    match dictLookup i cbs with
    | some cb => (removeKey i cbs, .invoke cb)
    | none => routeAction cbs (some i) act
  | .dict none act => routeAction cbs none act
  | .other => (cbs, .dropped)

/-- The 62-letter population of generate_message_id (line 362):
string.ascii_letters (lowercase then uppercase) followed by string.digits. -/
def idAlphabet : List Nat :=
  ((List.range 26).map fun i => 97 + i) ++ ((List.range 26).map fun i => 65 + i) ++
    ((List.range 10).map fun i => 48 + i)

/-- generate_message_id (lines 360-362): `random.choices(population, k=12)`
joined; the random draw is the index list `r` (12 indices into the 62-letter
population). -/
def generate_message_id (r : List Nat) : List Nat :=
  r.map fun i => idAlphabet.getD i 0

/-- The outcome of one send_message call (lines 365-408): the transmitted
message, the message id it returned, and the updated callback table. -/
structure SendOutcome where
  sent : Msg
  message_id : Option (List Nat)
  callbacks : List (List Nat × Nat)
deriving DecidableEq

/-- send_message (lines 365-408): refuse when not connected (lines 371-373);
give a dict without an "id" a generated one (lines 376-378); register the
callback under the id when both are present (lines 384-386); transmit the
(possibly extended) message and return its id.  Socket transmission errors
are outside this model. -/
def send_message (connected : Bool) (cbs : List (List Nat × Nat)) (m : Msg) (r : List Nat)
    (cb : Option Nat) : Option SendOutcome :=
  if connected = false then none
  else
    match m with
    | .dict none act =>
      let mid := generate_message_id r
      let cbs' := match cb with
        | some c => dictInsert mid c cbs
        | none => cbs
      some ⟨.dict (some mid) act, some mid, cbs'⟩
    | .dict (some mid) act =>
      let cbs' := match cb with
        | some c => dictInsert mid c cbs
        | none => cbs
      some ⟨.dict (some mid) act, some mid, cbs'⟩
    | .other => some ⟨.other, none, cbs⟩

/-- The connection state observed across teardown: the `connected` flag and
the response_callbacks table. -/
structure ClientState where
  connected : Bool
  callbacks : List (List Nat × Nat)
deriving DecidableEq

/-- The four teardown paths of the source: stop_socket_client
(lines 568-591), and the three receive-loop exits of socket_listener_thread —
peer closed / zero-length read (lines 332-336), a decoded close frame
(lines 338-341), and a hard receive error (lines 349-352). -/
inductive TeardownEvent
  | explicitStop
  | peerClosed
  | closeFrame
  | ioError
deriving DecidableEq

/-- The state transition each teardown path performs: stop_socket_client
clears response_callbacks (line 573) and clears `connected` (line 590); the
three receive-loop exits only set `connected = False` and break, leaving the
callback table untouched. -/
def teardown_step (s : ClientState) : TeardownEvent → ClientState
  | .explicitStop => ⟨false, []⟩
  | .peerClosed => ⟨false, s.callbacks⟩
  | .closeFrame => ⟨false, s.callbacks⟩
  | .ioError => ⟨false, s.callbacks⟩

/-- UTF-8 bytes of the 15-character JSON text of a ping message, i.e. the
string `\x7b"type":"ping"\x7d`. -/
def pingBytes : List Nat :=
  [123, 34, 116, 121, 112, 101, 34, 58, 34, 112, 105, 110, 103, 34, 125]

/-- A handshake response whose status line is "HTTP/1.1 101" and whose header
line spells the upgrade header in lower case ("upgrade: websocket"),
terminated by CRLF pairs.  A case-insensitive check accepts it; the source's
exact-substring check does not. -/
def lowerUpgradeResponse : List Nat :=
  http101Bytes ++ [13, 10] ++ upgradeBytes.map toLowerByte ++ [13, 10, 13, 10]

/- ------------------------------------------------------------------ -/
/- Helper lemmas                                                      -/
/- ------------------------------------------------------------------ -/

theorem getD_take {l : List Nat} {n i : Nat} (h : i < n) :
    (l.take n).getD i 0 = l.getD i 0 := by
  simp [List.getD_eq_getElem?_getD, List.getElem?_take, h]

theorem getElemOpt_eq_getD {l : List Nat} {i : Nat} (h : i < l.length) :
    l[i]? = some (l.getD i 0) := by
  rw [List.getElem?_eq_getElem h, List.getD_eq_getElem l 0 h]

theorem length_maskBytes (mask payload : List Nat) :
    (maskBytes mask payload).length = payload.length := by
  simp [maskBytes]

theorem getD_maskBytes (mask payload : List Nat) {i : Nat} (h : i < payload.length) :
    (maskBytes mask payload).getD i 0 = payload.getD i 0 ^^^ mask.getD (i % 4) 0 := by
  have hlen : i < (maskBytes mask payload).length := by simp [length_maskBytes, h]
  rw [List.getD_eq_getElem _ 0 hlen]
  simp [maskBytes, h]

theorem maskBytes_maskBytes (mask payload : List Nat) :
    maskBytes mask (maskBytes mask payload) = payload := by
  apply List.ext_getElem
  · simp [length_maskBytes]
  · intro i h1 h2
    have hi : i < payload.length := by simpa [length_maskBytes] using h2
    have hmi : i < (maskBytes mask payload).length := by simp [length_maskBytes, hi]
    rw [← List.getD_eq_getElem _ 0 h1, ← List.getD_eq_getElem _ 0 h2]
    rw [getD_maskBytes mask _ (by simpa [length_maskBytes] using hi),
      getD_maskBytes mask payload hi]
    exact Nat.xor_cancel_right _ _

theorem length_beBytes (w n : Nat) : (beBytes w n).length = w := by
  induction w generalizing n with
  | zero => simp [beBytes]
  | succ w ih => simp [beBytes, ih]

theorem foldl_beBytes (w : Nat) : ∀ a n : Nat,
    (beBytes w n).foldl (fun x b => x * 256 + b) a = a * 256 ^ w + n % 256 ^ w := by
  induction w with
  | zero => intro a n; simp [beBytes, Nat.mod_one]
  | succ w ih =>
    intro a n
    have hmul : n % (256 ^ w * 256) = n % 256 ^ w + 256 ^ w * (n / 256 ^ w % 256) :=
      Nat.mod_mul
    have hpow : (256 : Nat) ^ (w + 1) = 256 ^ w * 256 := by ring
    calc (beBytes (w + 1) n).foldl (fun x b => x * 256 + b) a
        = (beBytes w n).foldl (fun x b => x * 256 + b) (a * 256 + n / 256 ^ w % 256) := by
          simp [beBytes]
      _ = (a * 256 + n / 256 ^ w % 256) * 256 ^ w + n % 256 ^ w := ih _ n
      _ = a * 256 ^ (w + 1) + (n % 256 ^ w + 256 ^ w * (n / 256 ^ w % 256)) := by ring
      _ = a * 256 ^ (w + 1) + n % 256 ^ (w + 1) := by rw [hpow, ← hmul]

theorem beBytesToNat_beBytes {w n : Nat} (h : n < 256 ^ w) :
    beBytesToNat (beBytes w n) = n := by
  unfold beBytesToNat
  rw [foldl_beBytes w 0 n, Nat.zero_mul, Nat.zero_add, Nat.mod_eq_of_lt h]

theorem lor128_and15 {op : Nat} (h : op < 16) : (128 ||| op) &&& 15 = op := by
  have h' : ∀ x : Fin 16, (128 ||| x.val) &&& 15 = x.val := by decide
  exact h' ⟨op, h⟩

theorem lor128_and127 {L : Nat} (h : L < 128) : (128 ||| L) &&& 127 = L := by
  have h' : ∀ x : Fin 128, (128 ||| x.val) &&& 127 = x.val := by decide
  exact h' ⟨L, h⟩

theorem lor128_and128 {L : Nat} (h : L < 128) : (128 ||| L) &&& 128 = 128 := by
  have h' : ∀ x : Fin 128, (128 ||| x.val) &&& 128 = 128 := by decide
  exact h' ⟨L, h⟩

/-- decodeRest on a complete masked frame laid out as
header ++ mask ++ masked-payload recovers the payload and consumes the whole
frame. -/
theorem decodeRest_exact (pre mask payload : List Nat) (opcode : Nat)
    (hmask : mask.length = 4) :
    decodeRest (pre ++ (mask ++ maskBytes mask payload)) opcode true
        payload.length pre.length =
      (some opcode, some payload, pre.length + 4 + payload.length) := by
  have hlen : (pre ++ (mask ++ maskBytes mask payload)).length =
      pre.length + 4 + payload.length := by
    simp [hmask, length_maskBytes]; ring
  have hdrop : (pre ++ (mask ++ maskBytes mask payload)).drop pre.length =
      mask ++ maskBytes mask payload := List.drop_left pre _
  have hdrop2 : (pre ++ (mask ++ maskBytes mask payload)).drop (pre.length + 4) =
      maskBytes mask payload := by
    rw [← List.append_assoc]
    have : (pre ++ mask).length = pre.length + 4 := by simp [hmask]
    rw [← this]
    exact List.drop_left _ _
  unfold decodeRest
  rw [if_pos rfl, hlen, if_neg (by omega), hdrop, List.take_left' hmask,
    if_neg (by omega), hdrop2]
  rw [← length_maskBytes mask payload, List.take_length, length_maskBytes,
    maskBytes_maskBytes]

/-- decodeRest on a masked frame returns NeedsMoreData whenever the buffer is
shorter than header + mask + declared payload. -/
theorem decodeRest_masked_short (data : List Nat) (opcode plen hlen : Nat)
    (h : data.length < hlen + 4 + plen) :
    decodeRest data opcode true plen hlen = (none, none, 0) := by
  unfold decodeRest
  rw [if_pos rfl]
  by_cases h4 : data.length < hlen + 4
  · rw [if_pos h4]
  · rw [if_neg h4, if_pos h]

/- ------------------------------------------------------------------ -/
/- Further helper lemmas                                              -/
/- ------------------------------------------------------------------ -/

theorem unmaskChecked_range (mask payload : List Nat) (hmask : mask.length = 4) :
    ∀ k i, i + k ≤ payload.length →
      unmaskChecked mask payload i k =
        some ((List.range' i k).map fun j => payload.getD j 0 ^^^ mask.getD (j % 4) 0) := by
  intro k
  induction k with
  | zero => intro i h; simp [unmaskChecked]
  | succ k ih =>
    intro i h
    have hi : i < payload.length := by omega
    have hm : i % 4 < mask.length := by rw [hmask]; exact Nat.mod_lt _ (by omega)
    rw [List.range'_succ]
    simp only [unmaskChecked, getElemOpt_eq_getD hi, getElemOpt_eq_getD hm,
      ih (i + 1) (by omega), List.map_cons]

theorem unmaskChecked_eq_maskBytes (mask payload : List Nat) (hmask : mask.length = 4) :
    unmaskChecked mask payload 0 payload.length = some (maskBytes mask payload) := by
  rw [unmaskChecked_range mask payload hmask payload.length 0 (by omega)]
  rw [maskBytes, List.range_eq_range']

theorem decodeRestChecked_eq (data : List Nat) (opcode plen hlen : Nat) (masked : Bool) :
    decodeRestChecked data opcode masked plen hlen =
      some (decodeRest data opcode masked plen hlen) := by
  cases masked with
  | false =>
    unfold decodeRestChecked decodeRest
    rw [if_neg (by simp : ¬ (false = true)), if_neg (by simp : ¬ (false = true))]
    split_ifs <;> rfl
  | true =>
    unfold decodeRestChecked decodeRest
    by_cases h4 : data.length < hlen + 4
    · simp [h4]
    · by_cases hfull : data.length < hlen + 4 + plen
      · simp [h4, hfull]
      · have hmk : ((data.drop hlen).take 4).length = 4 := by
          rw [List.length_take, List.length_drop]; omega
        have hslice : ((data.drop (hlen + 4)).take plen).length = plen := by
          rw [List.length_take, List.length_drop]; omega
        have hun := unmaskChecked_eq_maskBytes ((data.drop hlen).take 4)
          ((data.drop (hlen + 4)).take plen) hmk
        rw [hslice] at hun
        simp only [if_pos rfl, if_neg h4, if_neg hfull, hun, if_true]

theorem bytesStartWith_iff (needle : List Nat) : ∀ hay : List Nat,
    bytesStartWith needle hay = true ↔ ∃ t, hay = needle ++ t := by
  induction needle with
  | nil => intro hay; simp [bytesStartWith]
  | cons a as ih =>
    intro hay
    cases hay with
    | nil =>
      simp [bytesStartWith]
    | cons b bs =>
      simp only [bytesStartWith, Bool.and_eq_true, beq_iff_eq, ih bs, List.cons_append,
        List.cons.injEq]
      constructor
      · rintro ⟨rfl, t, rfl⟩
        exact ⟨t, rfl, rfl⟩
      · rintro ⟨t, rfl, rfl⟩
        exact ⟨rfl, t, rfl⟩

theorem containsSub_iff (needle : List Nat) : ∀ hay : List Nat,
    containsSub needle hay = true ↔ ∃ s t, hay = s ++ needle ++ t := by
  intro hay
  induction hay with
  | nil =>
    simp only [containsSub, bytesStartWith_iff]
    constructor
    · rintro ⟨t, ht⟩
      exact ⟨[], t, by simpa using ht⟩
    · rintro ⟨s, t, hst⟩
      have hs : s = [] := by
        cases s with
        | nil => rfl
        | cons x xs => simp at hst
      subst hs
      exact ⟨t, by simpa using hst⟩
  | cons h t ih =>
    simp only [containsSub, Bool.or_eq_true, bytesStartWith_iff, ih]
    constructor
    · rintro (⟨u, hu⟩ | ⟨s, u, hu⟩)
      · exact ⟨[], u, by simpa using hu⟩
      · exact ⟨h :: s, u, by simp [hu]⟩
    · rintro ⟨s, u, hu⟩
      cases s with
      | nil => exact Or.inl ⟨u, by simpa using hu⟩
      | cons x xs =>
        simp only [List.cons_append, List.cons.injEq] at hu
        exact Or.inr ⟨xs, u, hu.2⟩

theorem dictLookup_removeKey (k : List Nat) (d : List (List Nat × Nat)) :
    dictLookup k (removeKey k d) = none := by
  induction d with
  | nil => rfl
  | cons p rest ih =>
    obtain ⟨k1, v⟩ := p
    by_cases h : k1 = k
    · simp [removeKey, h, ih]
    · simp [removeKey, dictLookup, h, ih]

theorem routeAction_fst (cbs : List (List Nat × Nat)) (mid act : Option (List Nat)) :
    (routeAction cbs mid act).1 = cbs := by
  cases act with
  | none => rfl
  | some a =>
    simp only [routeAction]
    split_ifs <;> rfl

theorem routeAction_ne_invoke (cbs : List (List Nat × Nat)) (mid act : Option (List Nat))
    (cb : Nat) : (routeAction cbs mid act).2 ≠ .invoke cb := by
  cases act with
  | none => simp [routeAction]
  | some a =>
    simp only [routeAction]
    split_ifs <;> simp

theorem length_idAlphabet : idAlphabet.length = 62 := by decide

theorem generate_message_id_mem (r : List Nat) (hv : ∀ x ∈ r, x < 62) :
    ∀ c ∈ generate_message_id r, c ∈ idAlphabet := by
  intro c hc
  simp only [generate_message_id, List.mem_map] at hc
  obtain ⟨i, hi, rfl⟩ := hc
  have h62 : i < idAlphabet.length := by
    rw [length_idAlphabet]
    exact hv i hi
  rw [List.getD_eq_getElem _ 0 h62]
  exact List.getElem_mem h62

theorem length_generate_message_id (r : List Nat) :
    (generate_message_id r).length = r.length := by
  simp [generate_message_id]

/- ------------------------------------------------------------------ -/
/- Claim theorems                                                     -/
/- ------------------------------------------------------------------ -/

/-- Claim C1 (amended): for every payload of any length below 2^64 (covering the claimed lengths 0, 1, 125, 126, 65535, 65536) and every non-control opcode below 16, decoding the frame built by encode_websocket_frame with any 4-byte mask yields the same opcode and exactly the original frame-layer payload bytes, consuming the whole frame. -/
theorem c1_encode_decode_roundtrip (payload mask : List Nat) (opcode : Nat)
    (hop : opcode < 16) (h8 : opcode ≠ 8) (h9 : opcode ≠ 9) (h10 : opcode ≠ 10)
    (hmask : mask.length = 4) (h64 : payload.length < 2 ^ 64) :
    decode_websocket_frame (encode_websocket_frame payload opcode mask) =
      (some opcode, some payload, (encode_websocket_frame payload opcode mask).length) := by
  have hctl : ¬ (opcode = 8 ∨ opcode = 9 ∨ opcode = 10) := by tauto
  by_cases hL : payload.length < 126
  · have hE : encode_websocket_frame payload opcode mask =
        (128 ||| opcode) :: (128 ||| payload.length) :: (mask ++ maskBytes mask payload) := by
      simp [encode_websocket_frame, hL]
    have hlen : ((128 ||| opcode) :: (128 ||| payload.length) ::
        (mask ++ maskBytes mask payload)).length = 6 + payload.length := by
      simp [hmask, length_maskBytes]; ring
    rw [hE]
    unfold decode_websocket_frame
    rw [hlen, if_neg (by omega)]
    have hb0 : ((128 ||| opcode) :: (128 ||| payload.length) ::
        (mask ++ maskBytes mask payload)).getD 0 0 = 128 ||| opcode := rfl
    have hb1 : ((128 ||| opcode) :: (128 ||| payload.length) ::
        (mask ++ maskBytes mask payload)).getD 1 0 = 128 ||| payload.length := rfl
    rw [hb0, hb1]
    simp only [lor128_and15 hop, lor128_and127 (show payload.length < 128 by omega),
      lor128_and128 (show payload.length < 128 by omega)]
    rw [if_neg hctl, if_neg (by omega : ¬ (payload.length = 126)),
      if_neg (by omega : ¬ (payload.length = 127))]
    have hmasked : ((128 : Nat) != 0) = true := rfl
    rw [hmasked]
    have heq : (128 ||| opcode) :: (128 ||| payload.length) ::
        (mask ++ maskBytes mask payload) =
        [128 ||| opcode, 128 ||| payload.length] ++ (mask ++ maskBytes mask payload) := rfl
    rw [heq]
    have hres := decodeRest_exact [128 ||| opcode, 128 ||| payload.length] mask payload
      opcode hmask
    simp only [List.length_cons, List.length_nil] at hres
    rw [hres]
  · by_cases hL2 : payload.length < 65536
    · have hE : encode_websocket_frame payload opcode mask =
          (128 ||| opcode) :: (128 ||| 126) ::
            (beBytes 2 payload.length ++ (mask ++ maskBytes mask payload)) := by
        simp [encode_websocket_frame, hL, hL2]
      have hlen : ((128 ||| opcode) :: (128 ||| 126) ::
          (beBytes 2 payload.length ++ (mask ++ maskBytes mask payload))).length =
          8 + payload.length := by
        simp [hmask, length_maskBytes, length_beBytes]; ring
      rw [hE]
      unfold decode_websocket_frame
      rw [hlen, if_neg (by omega)]
      have hb0 : ((128 ||| opcode) :: (128 ||| 126) ::
          (beBytes 2 payload.length ++ (mask ++ maskBytes mask payload))).getD 0 0 =
          128 ||| opcode := rfl
      have hb1 : ((128 ||| opcode) :: (128 ||| 126) ::
          (beBytes 2 payload.length ++ (mask ++ maskBytes mask payload))).getD 1 0 =
          128 ||| 126 := rfl
      rw [hb0, hb1]
      simp only [lor128_and15 hop, lor128_and127 (show (126 : Nat) < 128 by omega),
        lor128_and128 (show (126 : Nat) < 128 by omega)]
      rw [if_neg hctl, if_pos trivial, if_neg (by omega)]
      have hdrop : ((128 ||| opcode) :: (128 ||| 126) ::
          (beBytes 2 payload.length ++ (mask ++ maskBytes mask payload))).drop 2 =
          beBytes 2 payload.length ++ (mask ++ maskBytes mask payload) := rfl
      have h2562 : (256 : Nat) ^ 2 = 65536 := by norm_num
      rw [hdrop, List.take_left' (length_beBytes 2 payload.length),
        beBytesToNat_beBytes (show payload.length < 256 ^ 2 by omega)]
      have hmasked : ((128 : Nat) != 0) = true := rfl
      rw [hmasked]
      have heq : (128 ||| opcode) :: (128 ||| 126) ::
          (beBytes 2 payload.length ++ (mask ++ maskBytes mask payload)) =
          ((128 ||| opcode) :: (128 ||| 126) :: beBytes 2 payload.length) ++
            (mask ++ maskBytes mask payload) := rfl
      rw [heq]
      have hres := decodeRest_exact ((128 ||| opcode) :: (128 ||| 126) ::
        beBytes 2 payload.length) mask payload opcode hmask
      simp only [List.length_cons, length_beBytes] at hres
      rw [hres]
    · have hE : encode_websocket_frame payload opcode mask =
          (128 ||| opcode) :: (128 ||| 127) ::
            (beBytes 8 payload.length ++ (mask ++ maskBytes mask payload)) := by
        simp [encode_websocket_frame, hL, hL2]
      have hlen : ((128 ||| opcode) :: (128 ||| 127) ::
          (beBytes 8 payload.length ++ (mask ++ maskBytes mask payload))).length =
          14 + payload.length := by
        simp [hmask, length_maskBytes, length_beBytes]; ring
      rw [hE]
      unfold decode_websocket_frame
      rw [hlen, if_neg (by omega)]
      have hb0 : ((128 ||| opcode) :: (128 ||| 127) ::
          (beBytes 8 payload.length ++ (mask ++ maskBytes mask payload))).getD 0 0 =
          128 ||| opcode := rfl
      have hb1 : ((128 ||| opcode) :: (128 ||| 127) ::
          (beBytes 8 payload.length ++ (mask ++ maskBytes mask payload))).getD 1 0 =
          128 ||| 127 := rfl
      rw [hb0, hb1]
      simp only [lor128_and15 hop, lor128_and127 (show (127 : Nat) < 128 by omega),
        lor128_and128 (show (127 : Nat) < 128 by omega)]
      rw [if_neg hctl, if_neg (by omega : ¬ ((127 : Nat) = 126)), if_pos trivial,
        if_neg (by omega)]
      have hdrop : ((128 ||| opcode) :: (128 ||| 127) ::
          (beBytes 8 payload.length ++ (mask ++ maskBytes mask payload))).drop 2 =
          beBytes 8 payload.length ++ (mask ++ maskBytes mask payload) := rfl
      have h2568 : (256 : Nat) ^ 8 = 2 ^ 64 := by norm_num
      rw [hdrop, List.take_left' (length_beBytes 8 payload.length),
        beBytesToNat_beBytes (show payload.length < 256 ^ 8 by omega)]
      have hmasked : ((128 : Nat) != 0) = true := rfl
      rw [hmasked]
      have heq : (128 ||| opcode) :: (128 ||| 127) ::
          (beBytes 8 payload.length ++ (mask ++ maskBytes mask payload)) =
          ((128 ||| opcode) :: (128 ||| 127) :: beBytes 8 payload.length) ++
            (mask ++ maskBytes mask payload) := rfl
      rw [heq]
      have hres := decodeRest_exact ((128 ||| opcode) :: (128 ||| 127) ::
        beBytes 8 payload.length) mask payload opcode hmask
      simp only [List.length_cons, length_beBytes] at hres
      rw [hres]

/-- Witness for C1 at payload [7, 7], text opcode 1, mask [1, 2, 3, 4]. -/
theorem c1_encode_decode_roundtrip_witness :
    decode_websocket_frame (encode_websocket_frame [7, 7] 1 [1, 2, 3, 4]) =
      (some 1, some [7, 7], (encode_websocket_frame [7, 7] 1 [1, 2, 3, 4]).length) :=
  c1_encode_decode_roundtrip [7, 7] [1, 2, 3, 4] 1 (by decide) (by decide) (by decide) (by decide) (by decide)
    (by decide)

/-- Claim C1 counterexample: at payload [] (length 0, in the claimed set) and the control opcode 0x8, decode does not return the original payload after consuming the whole frame — it returns (0x8, None, 2) while the encoded frame is 6 bytes long. -/
theorem c1_control_opcode_counterexample :
    decode_websocket_frame (encode_websocket_frame [] 8 [0, 0, 0, 0]) ≠
      (some 8, some [], (encode_websocket_frame [] 8 [0, 0, 0, 0]).length) ∧
    decode_websocket_frame (encode_websocket_frame [] 8 [0, 0, 0, 0]) = (some 8, none, 2) ∧
    (encode_websocket_frame [] 8 [0, 0, 0, 0]).length = 6 := by decide

/-- Claim C2 (amended): every strict prefix of a frame encoded with a non-control opcode decodes to NeedsMoreData (none, none, 0), consuming zero bytes. -/
theorem c2_truncation_needsMoreData (payload mask : List Nat) (opcode n : Nat)
    (hop : opcode < 16) (h8 : opcode ≠ 8) (h9 : opcode ≠ 9) (h10 : opcode ≠ 10)
    (hmask : mask.length = 4) (h64 : payload.length < 2 ^ 64)
    (hn : n < (encode_websocket_frame payload opcode mask).length) :
    decode_websocket_frame ((encode_websocket_frame payload opcode mask).take n) =
      (none, none, 0) := by
  have hctl : ¬ (opcode = 8 ∨ opcode = 9 ∨ opcode = 10) := by tauto
  by_cases hL : payload.length < 126
  · have hE : encode_websocket_frame payload opcode mask =
        (128 ||| opcode) :: (128 ||| payload.length) :: (mask ++ maskBytes mask payload) := by
      simp [encode_websocket_frame, hL]
    have hEL : ((128 ||| opcode) :: (128 ||| payload.length) ::
        (mask ++ maskBytes mask payload)).length = 6 + payload.length := by
      simp [hmask, length_maskBytes]; ring
    rw [hE] at hn ⊢
    rw [hEL] at hn
    have hPlen : (((128 ||| opcode) :: (128 ||| payload.length) ::
        (mask ++ maskBytes mask payload)).take n).length = n := by
      rw [List.length_take, hEL]; omega
    unfold decode_websocket_frame
    rw [hPlen]
    by_cases hn2 : n < 2
    · rw [if_pos hn2]
    · rw [if_neg hn2]
      have hP0 : (((128 ||| opcode) :: (128 ||| payload.length) ::
          (mask ++ maskBytes mask payload)).take n).getD 0 0 = 128 ||| opcode := by
        rw [getD_take (show 0 < n by omega)]; rfl
      have hP1 : (((128 ||| opcode) :: (128 ||| payload.length) ::
          (mask ++ maskBytes mask payload)).take n).getD 1 0 = 128 ||| payload.length := by
        rw [getD_take (show 1 < n by omega)]; rfl
      rw [hP0, hP1]
      simp only [lor128_and15 hop, lor128_and127 (show payload.length < 128 by omega),
        lor128_and128 (show payload.length < 128 by omega)]
      rw [if_neg hctl, if_neg (by omega : ¬ (payload.length = 126)),
        if_neg (by omega : ¬ (payload.length = 127))]
      have hmasked : ((128 : Nat) != 0) = true := rfl
      rw [hmasked]
      exact decodeRest_masked_short _ opcode _ 2 (by rw [hPlen]; omega)
  · by_cases hL2 : payload.length < 65536
    · have hE : encode_websocket_frame payload opcode mask =
          (128 ||| opcode) :: (128 ||| 126) ::
            (beBytes 2 payload.length ++ (mask ++ maskBytes mask payload)) := by
        simp [encode_websocket_frame, hL, hL2]
      have hEL : ((128 ||| opcode) :: (128 ||| 126) ::
          (beBytes 2 payload.length ++ (mask ++ maskBytes mask payload))).length =
          8 + payload.length := by
        simp [hmask, length_maskBytes, length_beBytes]; ring
      rw [hE] at hn ⊢
      rw [hEL] at hn
      have hPlen : (((128 ||| opcode) :: (128 ||| 126) ::
          (beBytes 2 payload.length ++ (mask ++ maskBytes mask payload))).take n).length = n := by
        rw [List.length_take, hEL]; omega
      unfold decode_websocket_frame
      rw [hPlen]
      by_cases hn2 : n < 2
      · rw [if_pos hn2]
      · rw [if_neg hn2]
        have hP0 : (((128 ||| opcode) :: (128 ||| 126) ::
            (beBytes 2 payload.length ++ (mask ++ maskBytes mask payload))).take n).getD 0 0 =
            128 ||| opcode := by
          rw [getD_take (show 0 < n by omega)]; rfl
        have hP1 : (((128 ||| opcode) :: (128 ||| 126) ::
            (beBytes 2 payload.length ++ (mask ++ maskBytes mask payload))).take n).getD 1 0 =
            128 ||| 126 := by
          rw [getD_take (show 1 < n by omega)]; rfl
        rw [hP0, hP1]
        simp only [lor128_and15 hop, lor128_and127 (show (126 : Nat) < 128 by omega),
          lor128_and128 (show (126 : Nat) < 128 by omega)]
        rw [if_neg hctl, if_pos trivial]
        by_cases hn4 : n < 4
        · rw [if_pos hn4]
        · rw [if_neg hn4]
          have hdrop : ((((128 ||| opcode) :: (128 ||| 126) ::
              (beBytes 2 payload.length ++ (mask ++ maskBytes mask payload))).take n).drop 2) =
              (beBytes 2 payload.length ++ (mask ++ maskBytes mask payload)).take (n - 2) := by
            rw [List.drop_take]; rfl
          have htake : ((beBytes 2 payload.length ++
              (mask ++ maskBytes mask payload)).take (n - 2)).take 2 =
              beBytes 2 payload.length := by
            rw [List.take_take, Nat.min_eq_left (by omega),
              List.take_left' (length_beBytes 2 payload.length)]
          have h2562 : (256 : Nat) ^ 2 = 65536 := by norm_num
          rw [hdrop, htake, beBytesToNat_beBytes (show payload.length < 256 ^ 2 by omega)]
          exact decodeRest_masked_short _ opcode _ 4 (by rw [hPlen]; omega)
    · have hE : encode_websocket_frame payload opcode mask =
          (128 ||| opcode) :: (128 ||| 127) ::
            (beBytes 8 payload.length ++ (mask ++ maskBytes mask payload)) := by
        simp [encode_websocket_frame, hL, hL2]
      have hEL : ((128 ||| opcode) :: (128 ||| 127) ::
          (beBytes 8 payload.length ++ (mask ++ maskBytes mask payload))).length =
          14 + payload.length := by
        simp [hmask, length_maskBytes, length_beBytes]; ring
      rw [hE] at hn ⊢
      rw [hEL] at hn
      have hPlen : (((128 ||| opcode) :: (128 ||| 127) ::
          (beBytes 8 payload.length ++ (mask ++ maskBytes mask payload))).take n).length = n := by
        rw [List.length_take, hEL]; omega
      unfold decode_websocket_frame
      rw [hPlen]
      by_cases hn2 : n < 2
      · rw [if_pos hn2]
      · rw [if_neg hn2]
        have hP0 : (((128 ||| opcode) :: (128 ||| 127) ::
            (beBytes 8 payload.length ++ (mask ++ maskBytes mask payload))).take n).getD 0 0 =
            128 ||| opcode := by
          rw [getD_take (show 0 < n by omega)]; rfl
        have hP1 : (((128 ||| opcode) :: (128 ||| 127) ::
            (beBytes 8 payload.length ++ (mask ++ maskBytes mask payload))).take n).getD 1 0 =
            128 ||| 127 := by
          rw [getD_take (show 1 < n by omega)]; rfl
        rw [hP0, hP1]
        simp only [lor128_and15 hop, lor128_and127 (show (127 : Nat) < 128 by omega),
          lor128_and128 (show (127 : Nat) < 128 by omega)]
        rw [if_neg hctl, if_neg (by omega : ¬ ((127 : Nat) = 126)), if_pos trivial]
        by_cases hn10 : n < 10
        · rw [if_pos hn10]
        · rw [if_neg hn10]
          have hdrop : ((((128 ||| opcode) :: (128 ||| 127) ::
              (beBytes 8 payload.length ++ (mask ++ maskBytes mask payload))).take n).drop 2) =
              (beBytes 8 payload.length ++ (mask ++ maskBytes mask payload)).take (n - 2) := by
            rw [List.drop_take]; rfl
          have htake : ((beBytes 8 payload.length ++
              (mask ++ maskBytes mask payload)).take (n - 2)).take 8 =
              beBytes 8 payload.length := by
            rw [List.take_take, Nat.min_eq_left (by omega),
              List.take_left' (length_beBytes 8 payload.length)]
          have h2568 : (256 : Nat) ^ 8 = 2 ^ 64 := by norm_num
          rw [hdrop, htake, beBytesToNat_beBytes (show payload.length < 256 ^ 8 by omega)]
          exact decodeRest_masked_short _ opcode _ 10 (by rw [hPlen]; omega)

/-- Witness for C2: a 5-byte prefix of an 8-byte text frame decodes to NeedsMoreData. -/
theorem c2_truncation_witness :
    decode_websocket_frame ((encode_websocket_frame [7, 7] 1 [1, 2, 3, 4]).take 5) =
      (none, none, 0) :=
  c2_truncation_needsMoreData [7, 7] [1, 2, 3, 4] 1 5 (by decide) (by decide) (by decide) (by decide) (by decide)
    (by decide) (by decide)

/-- Claim C2 counterexample: the 2-byte strict prefix of the 6-byte close-opcode frame encode([], 0x8) decodes to (0x8, None, 2) — a consumed control result, not NeedsMoreData with zero consumed. -/
theorem c2_control_counterexample :
    2 < (encode_websocket_frame [] 8 [0, 0, 0, 0]).length ∧
    decode_websocket_frame ((encode_websocket_frame [] 8 [0, 0, 0, 0]).take 2) =
      (some 8, none, 2) := by decide

/-- Claim C3: the cyclic XOR masking loop is self-inverse — re-applying the mask with any 4-byte key to a masked payload reproduces the payload exactly. -/
theorem c3_mask_self_inverse (mask payload : List Nat) (_hmask : mask.length = 4) :
    maskBytes mask (maskBytes mask payload) = payload :=
  maskBytes_maskBytes mask payload

/-- Witness for C3 at mask [1, 2, 3, 4] and payload [5, 6, 7, 8, 9]. -/
theorem c3_mask_self_inverse_witness :
    maskBytes [1, 2, 3, 4] (maskBytes [1, 2, 3, 4] [5, 6, 7, 8, 9]) = [5, 6, 7, 8, 9] :=
  c3_mask_self_inverse [1, 2, 3, 4] [5, 6, 7, 8, 9] (by decide)

/-- Claim C4 (amended): encode selects the length form by payload length — a 1-byte length field below 126, a 126 marker plus 2-byte big-endian length below 65536, else a 127 marker plus 8-byte big-endian length; encoding the 15-byte UTF-8 ping JSON payload yields header bytes 0x81, 0x8F, then a 4-byte mask and 15 masked bytes (21 bytes total); a 70000-byte text payload uses the 127 marker with an 8-byte big-endian length field. -/
theorem c4_length_form_selection (payload mask : List Nat) (opcode : Nat) (hmask : mask.length = 4) :
    (payload.length < 126 →
      encode_websocket_frame payload opcode mask =
        (128 ||| opcode) :: (128 ||| payload.length) :: (mask ++ maskBytes mask payload) ∧
      (encode_websocket_frame payload opcode mask).length = 6 + payload.length) ∧
    (126 ≤ payload.length → payload.length < 65536 →
      (encode_websocket_frame payload opcode mask).getD 1 0 = 254 ∧
      beBytesToNat (((encode_websocket_frame payload opcode mask).drop 2).take 2) =
        payload.length ∧
      (encode_websocket_frame payload opcode mask).length = 8 + payload.length) ∧
    (65536 ≤ payload.length → payload.length < 2 ^ 64 →
      (encode_websocket_frame payload opcode mask).getD 1 0 = 255 ∧
      beBytesToNat (((encode_websocket_frame payload opcode mask).drop 2).take 8) =
        payload.length ∧
      (encode_websocket_frame payload opcode mask).length = 14 + payload.length) ∧
    (encode_websocket_frame pingBytes 1 mask =
      129 :: 143 :: (mask ++ maskBytes mask pingBytes) ∧
      (encode_websocket_frame pingBytes 1 mask).length = 21) ∧
    (payload.length = 70000 →
      (encode_websocket_frame payload 1 mask).getD 1 0 = 255 ∧
      ((encode_websocket_frame payload 1 mask).drop 2).take 8 =
        [0, 0, 0, 0, 0, 1, 17, 112] ∧
      (encode_websocket_frame payload 1 mask).length = 70014) := by
  refine ⟨?_, ?_, ?_, ?_, ?_⟩
  · intro hL
    constructor
    · simp [encode_websocket_frame, hL]
    · simp [encode_websocket_frame, hL, hmask, length_maskBytes]; ring
  · intro hL1 hL2
    have hE : encode_websocket_frame payload opcode mask =
        (128 ||| opcode) :: 254 ::
          (beBytes 2 payload.length ++ (mask ++ maskBytes mask payload)) := by
      simp [encode_websocket_frame, show ¬ payload.length < 126 by omega, hL2]
    rw [hE]
    refine ⟨rfl, ?_, ?_⟩
    · have hdrop : ((128 ||| opcode) :: 254 ::
          (beBytes 2 payload.length ++ (mask ++ maskBytes mask payload))).drop 2 =
          beBytes 2 payload.length ++ (mask ++ maskBytes mask payload) := rfl
      have h2562 : (256 : Nat) ^ 2 = 65536 := by norm_num
      rw [hdrop, List.take_left' (length_beBytes 2 payload.length),
        beBytesToNat_beBytes (show payload.length < 256 ^ 2 by omega)]
    · simp [hmask, length_maskBytes, length_beBytes]; ring
  · intro hL1 hL2
    have hE : encode_websocket_frame payload opcode mask =
        (128 ||| opcode) :: 255 ::
          (beBytes 8 payload.length ++ (mask ++ maskBytes mask payload)) := by
      simp [encode_websocket_frame, show ¬ payload.length < 126 by omega,
        show ¬ payload.length < 65536 by omega]
    rw [hE]
    refine ⟨rfl, ?_, ?_⟩
    · have hdrop : ((128 ||| opcode) :: 255 ::
          (beBytes 8 payload.length ++ (mask ++ maskBytes mask payload))).drop 2 =
          beBytes 8 payload.length ++ (mask ++ maskBytes mask payload) := rfl
      have h2568 : (256 : Nat) ^ 8 = 2 ^ 64 := by norm_num
      rw [hdrop, List.take_left' (length_beBytes 8 payload.length),
        beBytesToNat_beBytes (show payload.length < 256 ^ 8 by omega)]
    · simp [hmask, length_maskBytes, length_beBytes]; ring
  · constructor
    · simp [encode_websocket_frame, pingBytes]
    · simp [encode_websocket_frame, pingBytes, hmask, length_maskBytes]
  · intro h70
    have hE : encode_websocket_frame payload 1 mask =
        129 :: 255 :: (beBytes 8 payload.length ++ (mask ++ maskBytes mask payload)) := by
      simp [encode_websocket_frame, h70]
    rw [hE]
    refine ⟨rfl, ?_, ?_⟩
    · have hdrop : (129 :: 255 ::
          (beBytes 8 payload.length ++ (mask ++ maskBytes mask payload))).drop 2 =
          beBytes 8 payload.length ++ (mask ++ maskBytes mask payload) := rfl
      rw [hdrop, List.take_left' (length_beBytes 8 payload.length), h70]
      decide
    · simp [hmask, length_maskBytes, length_beBytes, h70]

/-- Witness for C4: the ping scenario instantiated at the all-zero mask. -/
theorem c4_length_form_witness :
    encode_websocket_frame pingBytes 1 [0, 0, 0, 0] =
      129 :: 143 :: ([0, 0, 0, 0] ++ maskBytes [0, 0, 0, 0] pingBytes) ∧
    (encode_websocket_frame pingBytes 1 [0, 0, 0, 0]).length = 21 :=
  (c4_length_form_selection pingBytes [0, 0, 0, 0] 1 (by decide)).2.2.2.1

/-- Claim C4 counterexample: the UTF-8 ping JSON payload is 15 bytes, not 14, so its encoding carries header byte 0x8F (143) and totals 21 bytes — not 0x8E (142) and 20 as the claim's scenario states. -/
theorem c4_ping_scenario_counterexample :
    pingBytes.length = 15 ∧
    (encode_websocket_frame pingBytes 1 [0, 0, 0, 0]).getD 1 0 = 143 ∧
    (encode_websocket_frame pingBytes 1 [0, 0, 0, 0]).getD 1 0 ≠ 142 ∧
    (encode_websocket_frame pingBytes 1 [0, 0, 0, 0]).length = 21 ∧
    (encode_websocket_frame pingBytes 1 [0, 0, 0, 0]).length ≠ 20 := by decide

/-- Claim C5: for every buffer of at least 2 bytes whose first frame carries a control opcode (close 0x8, ping 0x9, pong 0xA), decode consumes exactly the 2 header bytes, signals the control opcode, and parses no payload. -/
theorem c5_control_payloadless (data : List Nat) (h2 : 2 ≤ data.length)
    (hctl : data.getD 0 0 &&& 15 = 8 ∨ data.getD 0 0 &&& 15 = 9 ∨
      data.getD 0 0 &&& 15 = 10) :
    decode_websocket_frame data = (some (data.getD 0 0 &&& 15), none, 2) := by
  unfold decode_websocket_frame
  rw [if_neg (by omega), if_pos hctl]

/-- Witness for C5 at the close frame [0x88, 0x02, 0x03, 0xE8] that stop_socket_client itself sends. -/
theorem c5_control_witness : decode_websocket_frame [136, 2, 3, 232] = (some 8, none, 2) := by
  have h := c5_control_payloadless [136, 2, 3, 232] (by decide) (by decide)
  simpa using h

/-- Claim C6: when a decoded message's id matches a pending entry, handle_message removes that entry and invokes its callback exactly once; a later message reusing the consumed id no longer matches and falls through to action dispatch or drop, never back into the removed callback. -/
theorem c6_callback_exactly_once (cbs : List (List Nat × Nat)) (i : List Nat) (cb : Nat)
    (act : Option (List Nat)) (hl : dictLookup i cbs = some cb) :
    handle_message cbs (.dict (some i) act) = (removeKey i cbs, .invoke cb) ∧
    dictLookup i (removeKey i cbs) = none ∧
    (∀ act2, (handle_message (removeKey i cbs) (.dict (some i) act2)).1 = removeKey i cbs) ∧
    (∀ act2 cb2, (handle_message (removeKey i cbs) (.dict (some i) act2)).2 ≠
      .invoke cb2) := by
  refine ⟨by simp [handle_message, hl], dictLookup_removeKey i cbs, ?_, ?_⟩
  · intro act2
    simp [handle_message, dictLookup_removeKey i cbs, routeAction_fst]
  · intro act2 cb2
    simp only [handle_message, dictLookup_removeKey i cbs]
    exact routeAction_ne_invoke _ _ _ _

/-- Witness for C6 at the one-entry table [([97], 7)] and id [97]. -/
theorem c6_callback_witness :
    handle_message [([97], 7)] (.dict (some [97]) none) = ([], .invoke 7) ∧
    (handle_message [] (.dict (some [97]) (some executeCodeBytes))).2 ≠ .invoke 7 := by
  have h := c6_callback_exactly_once [([97], 7)] [97] 7 none (by decide)
  have hrk : removeKey [97] [([97], 7)] = [] := by decide
  refine ⟨by rw [h.1, hrk], ?_⟩
  have h2 := h.2.2.2 (some executeCodeBytes) 7
  rwa [hrk] at h2

/-- Claim C7 (amended): every teardown path clears the connected flag; only the explicit stop_socket_client path also empties the pending-callback table, while the passive paths (peer close, decoded close frame, I/O error) leave the table unchanged and invoke no callback themselves. -/
theorem c7_teardown_transition (s : ClientState) (e : TeardownEvent) :
    (teardown_step s e).connected = false ∧
    (e = .explicitStop → (teardown_step s e).callbacks = []) ∧
    (e ≠ .explicitStop → (teardown_step s e).callbacks = s.callbacks) := by
  cases e <;> simp [teardown_step]

/-- Witness for C7 at a connected state with one pending callback and the peer-closed event. -/
theorem c7_teardown_witness :
    (teardown_step ⟨true, [([97], 5)]⟩ .peerClosed).connected = false ∧
    (teardown_step ⟨true, [([97], 5)]⟩ .peerClosed).callbacks = [([97], 5)] := by
  have h := c7_teardown_transition ⟨true, [([97], 5)]⟩ .peerClosed
  exact ⟨h.1, h.2.2 (by decide)⟩

/-- Claim C7 counterexample: after a peer-closed teardown from a state with one pending callback, the connection is Disconnected but the pending table still holds that entry — it is not left empty as claimed. -/
theorem c7_teardown_counterexample :
    (teardown_step ⟨true, [([97], 5)]⟩ .peerClosed).connected = false ∧
    (teardown_step ⟨true, [([97], 5)]⟩ .peerClosed).callbacks ≠ [] := by decide

/-- Claim C8 (amended): a dict message sent while connected without an id field is transmitted with a freshly generated id — a 12-character token drawn from the 62-letter alphanumeric population — and the callback, when given, is registered under that id; per-connection uniqueness of the id is not enforced. -/
theorem c8_send_assigns_id (cbs : List (List Nat × Nat)) (act : Option (List Nat))
    (r : List Nat) (cb : Option Nat) (hr : r.length = 12) (hv : ∀ x ∈ r, x < 62) :
    send_message true cbs (.dict none act) r cb =
      some ⟨.dict (some (generate_message_id r)) act, some (generate_message_id r),
        match cb with
        | some c => dictInsert (generate_message_id r) c cbs
        | none => cbs⟩ ∧
    (generate_message_id r).length = 12 ∧
    (∀ c ∈ generate_message_id r, c ∈ idAlphabet) := by
  refine ⟨rfl, ?_, generate_message_id_mem r hv⟩
  rw [length_generate_message_id, hr]

/-- Witness for C8 at the constant random draw 3 repeated 12 times. -/
theorem c8_send_assigns_id_witness :
    send_message true [] (.dict none none) (List.replicate 12 3) none =
      some ⟨.dict (some (generate_message_id (List.replicate 12 3))) none,
        some (generate_message_id (List.replicate 12 3)), []⟩ ∧
    (generate_message_id (List.replicate 12 3)).length = 12 ∧
    (∀ c ∈ generate_message_id (List.replicate 12 3), c ∈ idAlphabet) :=
  c8_send_assigns_id [] none (List.replicate 12 3) none (by decide) (by decide)

/-- Claim C8 counterexample: two sends on the same connection whose random draws coincide transmit the same id (the letter a repeated 12 times), so the generated id is not unique within the connection. -/
theorem c8_duplicate_id_counterexample :
    send_message true [] (.dict none none) (List.replicate 12 0) none =
      some ⟨.dict (some (List.replicate 12 97)) none, some (List.replicate 12 97), []⟩ ∧
    send_message true [] (.dict none (some executeCodeBytes)) (List.replicate 12 0) none =
      some ⟨.dict (some (List.replicate 12 97)) (some executeCodeBytes),
        some (List.replicate 12 97), []⟩ := by decide

/-- Claim C9 (amended): verify_websocket_handshake accepts a response iff the response text contains the exact, case-sensitive substrings HTTP/1.1 101 and Upgrade: websocket anywhere in the text (not specifically in the status line or a header line); on failure the connect step closes the socket and leaves the connection down. -/
theorem c9_handshake_acceptance (response : List Nat) :
    (verify_websocket_handshake response = true ↔
      (∃ s t, response = s ++ http101Bytes ++ t) ∧
      (∃ s t, response = s ++ upgradeBytes ++ t)) ∧
    (verify_websocket_handshake response = false →
      handshake_connect_step response = (false, false)) := by
  constructor
  · rw [verify_websocket_handshake, Bool.and_eq_true, containsSub_iff, containsSub_iff]
  · intro h
    rw [handshake_connect_step, if_neg (by simp [h])]

/-- Witness for C9: the empty response is rejected and the connect step reports (false, false). -/
theorem c9_handshake_witness : handshake_connect_step [] = (false, false) :=
  (c9_handshake_acceptance []).2 (by decide)

/-- Claim C9 counterexample: a response with status line HTTP/1.1 101 and lower-case header upgrade: websocket satisfies the claimed case-insensitive acceptance rule but is rejected by the source's exact-substring check. -/
theorem c9_case_sensitivity_counterexample :
    spec_handshake_accepts lowerUpgradeResponse = true ∧
    verify_websocket_handshake lowerUpgradeResponse = false := by decide

/-- Claim C10: the frame decoder is total — on every byte-sequence input, every partial operation of the body stays in bounds, so the checked mirror computes exactly the decoder's value: an (opcode, payload, consumed) triple or the NeedsMoreData value (none, none, 0), and no exception escapes to the caller. -/
theorem c10_decoder_total_no_exception (data : List Nat) :
    decode_websocket_frame_checked data = some (decode_websocket_frame data) := by
  unfold decode_websocket_frame_checked decode_websocket_frame
  by_cases h2 : data.length < 2
  · simp [h2]
  · rw [if_neg h2, if_neg h2]
    rw [getElemOpt_eq_getD (show 0 < data.length by omega),
      getElemOpt_eq_getD (show 1 < data.length by omega)]
    dsimp only []
    by_cases hctl : data.getD 0 0 &&& 15 = 8 ∨ data.getD 0 0 &&& 15 = 9 ∨
        data.getD 0 0 &&& 15 = 10
    · rw [if_pos hctl, if_pos hctl]
    · rw [if_neg hctl, if_neg hctl]
      by_cases h126 : data.getD 1 0 &&& 127 = 126
      · rw [if_pos h126, if_pos h126]
        by_cases h4 : data.length < 4
        · rw [if_pos h4, if_pos h4]
        · rw [if_neg h4, if_neg h4]
          have hsl : ((data.drop 2).take 2).length = 2 := by
            rw [List.length_take, List.length_drop]; omega
          rw [show unpackBE 2 ((data.drop 2).take 2) =
            some (beBytesToNat ((data.drop 2).take 2)) from by rw [unpackBE, if_pos hsl]]
          exact decodeRestChecked_eq data _ _ 4 _
      · rw [if_neg h126, if_neg h126]
        by_cases h127 : data.getD 1 0 &&& 127 = 127
        · rw [if_pos h127, if_pos h127]
          by_cases h10 : data.length < 10
          · rw [if_pos h10, if_pos h10]
          · rw [if_neg h10, if_neg h10]
            have hsl : ((data.drop 2).take 8).length = 8 := by
              rw [List.length_take, List.length_drop]; omega
            rw [show unpackBE 8 ((data.drop 2).take 8) =
              some (beBytesToNat ((data.drop 2).take 8)) from by rw [unpackBE, if_pos hsl]]
            exact decodeRestChecked_eq data _ _ 10 _
        · rw [if_neg h127, if_neg h127]
          exact decodeRestChecked_eq data _ _ 2 _
